import Mathlib

/-!
Shallow embedding of the bgpsim BGP/IGP convergence simulator
(`src/router.rs`, `src/network.rs`, `src/bgp.rs`, `src/event.rs`,
`src/external_router.rs`, `src/types.rs`), together with theorems about
the embedded operations.

Modelling conventions:
* Rust `HashMap`s become association lists with unique keys (`alGet`,
  `alInsert`, `alRemove`); `HashSet`s become duplicate-free lists
  (`slContains`, `slInsert`, `slRemove`, `slUnion`).  Iteration order of a
  Rust hash container is arbitrary; the lists fix one such order.
* `f32` link weights become `Rat`; `u32` fields become `Nat`.
* A fallible Rust function that cannot have mutated `self` before failing
  is modelled with `Except`; a function that mutates `&mut self` before a
  failing step returns its partially updated state together with an
  optional error, mirroring what the caller of the Rust function observes.
* The IGP graph and the shortest-path computation (`bellman_ford` inside
  `write_igp_forwarding_table`) are outside the embedded core; the
  `igp_forwarding_table` field, which is public in the source, carries the
  state that computation would populate.
-/

namespace Bgpsim

/-- Router identifier (`RouterId` in `types.rs`, a dense graph index). -/
abbrev RouterId := Nat

/-- IP prefix (`Prefix(u32)` in `types.rs`); called `Pfx` because the Rust
name is reserved in Lean. -/
abbrev Pfx := Nat

/-- Link weight (`type LinkWeight = f32` in `types.rs`), modelled as `Rat`. -/
abbrev LinkWeight := Rat

section AssocList

variable {κ β : Type} [DecidableEq κ]

/-- Lookup in an association list (models `HashMap::get`). -/
def alGet : List (κ × β) → κ → Option β
  | [], _ => none
  | (k, v) :: l, q => if k = q then some v else alGet l q

/-- Insert or replace a binding (models `HashMap::insert`). -/
def alInsert : List (κ × β) → κ → β → List (κ × β)
  | [], q, b => [(q, b)]
  | (k, v) :: l, q, b => if k = q then (q, b) :: l else (k, v) :: alInsert l q b

/-- Remove a key (models `HashMap::remove` on a unique-key map). -/
def alRemove : List (κ × β) → κ → List (κ × β)
  | [], _ => []
  | (k, v) :: l, q => if k = q then alRemove l q else (k, v) :: alRemove l q

end AssocList

section SetList

variable {α : Type} [DecidableEq α]

/-- Membership test (models `HashSet::contains`). -/
def slContains : List α → α → Bool
  | [], _ => false
  | y :: l, x => if y = x then true else slContains l x

/-- Insert without duplicating (models `HashSet::insert`). -/
def slInsert (l : List α) (x : α) : List α :=
  if slContains l x then l else l ++ [x]

/-- Remove an element (models `HashSet::remove`). -/
def slRemove : List α → α → List α
  | [], _ => []
  | y :: l, x => if y = x then slRemove l x else y :: slRemove l x

/-- Union of two set-lists (models `HashSet::union`), keeping the left
operand's elements first. -/
def slUnion (a b : List α) : List α :=
  b.foldl (fun acc x => slInsert acc x) a

end SetList

/-- `BgpRoute` (`bgp.rs`): the advertisement payload.  The field `pfx` is
the Rust field `prefix`, renamed because of the Lean keyword. -/
structure BgpRoute where
  pfx : Pfx
  as_path : List Nat
  next_hop : RouterId
  local_pref : Option Nat
  med : Option Nat
deriving DecidableEq, Repr

/-- `BgpRoute::clone_default`: a clone with the default values applied to
the optional attributes (`local_pref` 100, `med` 0). -/
def BgpRoute.clone_default (r : BgpRoute) : BgpRoute :=
  { r with local_pref := some (r.local_pref.getD 100), med := some (r.med.getD 0) }

/-- `impl PartialEq for BgpRoute`: equality after defaulting both sides;
the right side's `as_path` is compared raw, exactly as in the source
(`s.as_path == other.as_path`), which makes no difference because
`clone_default` leaves `as_path` unchanged. -/
def BgpRoute.eqRoute (a b : BgpRoute) : Bool :=
  let s := a.clone_default
  let o := b.clone_default
  s.pfx == o.pfx && s.as_path == b.as_path && s.next_hop == o.next_hop
    && s.local_pref == o.local_pref && s.med == o.med

/-- `BgpSessionType` (`bgp.rs`). -/
inductive BgpSessionType
  | IBgpPeer
  | IBgpClient
  | EBgp
deriving DecidableEq, Repr

/-- `BgpSessionType::is_ebgp`. -/
def BgpSessionType.is_ebgp : BgpSessionType → Bool
  | .EBgp => true
  | _ => false

/-- `BgpSessionType::is_ibgp`. -/
def BgpSessionType.is_ibgp (t : BgpSessionType) : Bool := !t.is_ebgp

/-- `BgpEvent` (`bgp.rs`). -/
inductive BgpEvent
  | Withdraw (p : Pfx)
  | Update (r : BgpRoute)
deriving DecidableEq, Repr

/-- `Event` (`event.rs`): a BGP event from the first router to the second. -/
inductive Event
  | Bgp (source target : RouterId) (e : BgpEvent)
deriving DecidableEq, Repr

/-- `DeviceError` (`types.rs`). -/
inductive DeviceError
  | SessionAlreadyExists (r : RouterId)
  | NoBgpSession (r : RouterId)
  | RouterNotFound (r : RouterId)
  | RouterNotReachable (r : RouterId)
deriving DecidableEq, Repr

/-- `RIBEntry` (`router.rs`): a stored route plus provenance and the
optional IGP cost to its next hop. -/
structure RIBEntry where
  route : BgpRoute
  from_type : BgpSessionType
  from_id : RouterId
  igp_cost : Option LinkWeight
deriving DecidableEq, Repr

/-- `impl PartialEq for RIBEntry`: route equality plus `from_id`. -/
def RIBEntry.eqRIB (a b : RIBEntry) : Bool :=
  BgpRoute.eqRoute a.route b.route && a.from_id == b.from_id

/-- Strict `<` of Rust's derived `Ord` on `Option<u32>` (`None` below
`Some`). -/
def optLtN : Option Nat → Option Nat → Bool
  | none, some _ => true
  | some x, some y => x < y
  | _, _ => false

/-- Strict `>` of Rust's `PartialOrd` on `Option<f32>` (`None` below
`Some`); this is the second `igp_cost` comparison in
`RIBEntry::partial_cmp`. -/
def optGtQ : Option LinkWeight → Option LinkWeight → Bool
  | some _, none => true
  | some x, some y => y < x
  | _, _ => false

/-- The first `igp_cost` comparison in `RIBEntry::partial_cmp`:
`self.igp_cost.unwrap() < other.igp_cost.unwrap()`.  The source panics
when a cost is absent; every call site compares processed entries, whose
cost is always present, so the `none` arms (returning `false` here) are
never reached. -/
def unwrapLtQ : Option LinkWeight → Option LinkWeight → Bool
  | some x, some y => x < y
  | _, _ => false

/-- `impl PartialOrd for RIBEntry::partial_cmp` (`router.rs` 519-568),
translated branch by branch.  Note that the second `from_type` branch
tests `self` twice (`self.from_type.is_ibgp() && self.from_type.is_ebgp()`),
exactly as the source does; that condition is unsatisfiable. -/
def RIBEntry.partial_cmp (a b : RIBEntry) : Option Ordering :=
  let s := a.route.clone_default
  let o := b.route.clone_default
  if optLtN o.local_pref s.local_pref then some .gt
  else if optLtN s.local_pref o.local_pref then some .lt
  else if s.as_path.length < o.as_path.length then some .gt
  else if o.as_path.length < s.as_path.length then some .lt
  else if optLtN s.med o.med then some .gt
  else if optLtN o.med s.med then some .lt
  else if a.from_type.is_ebgp && b.from_type.is_ibgp then some .gt
  else if a.from_type.is_ibgp && a.from_type.is_ebgp then some .lt
  else if unwrapLtQ a.igp_cost b.igp_cost then some .gt
  else if optGtQ a.igp_cost b.igp_cost then some .lt
  else if s.next_hop < o.next_hop then some .gt
  else if o.next_hop < s.next_hop then some .lt
  else if a.from_id < b.from_id then some .gt
  else if b.from_id < a.from_id then some .lt
  else some .eq

/-- Modelled from the spec: the strict lexicographic BGP decision order of
spec section 4.4, stated from the spec's own words for refinement
comparison with `RIBEntry.partial_cmp` — higher `local_pref`, then shorter
`as_path`, then lower `med`, then eBGP preferred over iBGP, then lower
`igp_cost`, then lower `next_hop`, then lower `from_id`; optional
attributes are defaulted first.  Processed entries always carry an
`igp_cost`; an absent cost is read as 0 here. -/
def specCmp (a b : RIBEntry) : Ordering :=
  let s := a.route.clone_default
  let o := b.route.clone_default
  if o.local_pref.getD 100 < s.local_pref.getD 100 then .gt
  else if s.local_pref.getD 100 < o.local_pref.getD 100 then .lt
  else if s.as_path.length < o.as_path.length then .gt
  else if o.as_path.length < s.as_path.length then .lt
  else if s.med.getD 0 < o.med.getD 0 then .gt
  else if o.med.getD 0 < s.med.getD 0 then .lt
  else if a.from_type.is_ebgp && b.from_type.is_ibgp then .gt
  else if a.from_type.is_ibgp && b.from_type.is_ebgp then .lt
  else if a.igp_cost.getD 0 < b.igp_cost.getD 0 then .gt
  else if b.igp_cost.getD 0 < a.igp_cost.getD 0 then .lt
  else if s.next_hop < o.next_hop then .gt
  else if o.next_hop < s.next_hop then .lt
  else if a.from_id < b.from_id then .gt
  else if b.from_id < a.from_id then .lt
  else .eq

/-- `Router` (`router.rs`). -/
structure Router where
  name : String
  router_id : RouterId
  as_id : Nat
  igp_forwarding_table : List (RouterId × Option (RouterId × LinkWeight))
  ibgp_peer_sessions : List RouterId
  ibgp_client_sessions : List RouterId
  ebgp_sessions : List RouterId
  bgp_rib_in : List (Pfx × List (RouterId × RIBEntry))
  bgp_rib : List (Pfx × RIBEntry)
  bgp_rib_out : List (Pfx × List (RouterId × RIBEntry))
  bgp_known_prefixes : List Pfx
  policy_bgp_local_pref : List (RouterId × Nat)
  policy_bgp_route_no_export : List (RouterId × RouterId)
deriving DecidableEq, Repr

/-- `Router::new` (the `NetworkDevice` impl). -/
def Router.new (name : String) (router_id : RouterId) (as_id : Nat) : Router :=
  { name := name, router_id := router_id, as_id := as_id,
    igp_forwarding_table := [], ibgp_peer_sessions := [],
    ibgp_client_sessions := [], ebgp_sessions := [], bgp_rib_in := [],
    bgp_rib := [], bgp_rib_out := [], bgp_known_prefixes := [],
    policy_bgp_local_pref := [], policy_bgp_route_no_export := [] }

/-- `Router::establish_bgp_session` (`router.rs` 106-125). -/
def Router.establish_bgp_session (r : Router) (target : RouterId)
    (session_type : BgpSessionType) : Except DeviceError Router :=
  if slContains r.ebgp_sessions target || slContains r.ibgp_peer_sessions target
      || slContains r.ibgp_client_sessions target then
    .error (.SessionAlreadyExists target)
  else
    .ok (match session_type with
      | .EBgp => { r with ebgp_sessions := slInsert r.ebgp_sessions target }
      | .IBgpPeer => { r with ibgp_peer_sessions := slInsert r.ibgp_peer_sessions target }
      | .IBgpClient => { r with ibgp_client_sessions := slInsert r.ibgp_client_sessions target })

/-- Per-prefix purge loop of `Router::close_bgp_session` (`router.rs`
142-149), applied to one of the nested RIB maps: for every listed prefix,
remove the entry of neighbor `t` if the prefix is present. -/
def purgeNeighbor (t : RouterId) :
    List Pfx → List (Pfx × List (RouterId × RIBEntry)) → List (Pfx × List (RouterId × RIBEntry))
  | [], m => m
  | p :: ps, m =>
    purgeNeighbor t ps
      (match alGet m p with
       | some inner => alInsert m p (alRemove inner t)
       | none => m)

/-- `Router::close_bgp_session` (`router.rs` 128-151). -/
def Router.close_bgp_session (r : Router) (target : RouterId) :
    Except DeviceError Router :=
  let removed := slContains r.ebgp_sessions target
      || slContains r.ibgp_peer_sessions target
      || slContains r.ibgp_client_sessions target
  if !removed then .error (.NoBgpSession target)
  else
    let r1 := { r with
      ebgp_sessions := slRemove r.ebgp_sessions target,
      ibgp_peer_sessions := slRemove r.ibgp_peer_sessions target,
      ibgp_client_sessions := slRemove r.ibgp_client_sessions target }
    .ok { r1 with
      bgp_rib_in := purgeNeighbor target r1.bgp_known_prefixes r1.bgp_rib_in,
      bgp_rib_out := purgeNeighbor target r1.bgp_known_prefixes r1.bgp_rib_out }

/-- `Router::get_bgp_session_type` (`router.rs` 463-473). -/
def Router.get_bgp_session_type (r : Router) (peer : RouterId) :
    Except DeviceError BgpSessionType :=
  if slContains r.ibgp_peer_sessions peer then .ok .IBgpPeer
  else if slContains r.ibgp_client_sessions peer then .ok .IBgpClient
  else if slContains r.ebgp_sessions peer then .ok .EBgp
  else .error (.NoBgpSession peer)

/-- `Router::should_export_route` (`router.rs` 477-497). -/
def Router.should_export_route (r : Router) (source target : RouterId) :
    Except DeviceError Bool :=
  if source = target then .ok false
  else if slContains r.policy_bgp_route_no_export (source, target) then .ok false
  else
    match r.get_bgp_session_type source with
    | .error e => .error e
    | .ok from_type =>
      match r.get_bgp_session_type target with
      | .error e => .error e
      | .ok to_type =>
        .ok (match from_type, to_type with
          | .EBgp, _ => true
          | .IBgpClient, _ => true
          | _, .EBgp => true
          | _, .IBgpClient => true
          | _, _ => false)

/-- `Router::process_bgp_rib_in_route` (`router.rs` 403-440). -/
def Router.process_bgp_rib_in_route (r : Router) (entry : RIBEntry) :
    Except DeviceError RIBEntry :=
  let local_pref : Option Nat :=
    if entry.from_type.is_ebgp then
      some ((alGet r.policy_bgp_local_pref entry.from_id).getD 100)
    else entry.route.local_pref
  let mk : LinkWeight → RIBEntry := fun igp_cost =>
    let new_route1 := { entry.route.clone_default with local_pref := local_pref }
    let new_route := if entry.from_type.is_ebgp then
        { new_route1 with next_hop := entry.from_id }
      else new_route1
    { route := new_route, from_type := entry.from_type,
      from_id := entry.from_id, igp_cost := some igp_cost }
  if entry.from_type.is_ibgp then
    match alGet r.igp_forwarding_table entry.route.next_hop with
    | none => .error (.RouterNotFound entry.route.next_hop)
    | some none => .error (.RouterNotReachable entry.route.next_hop)
    | some (some pr) => .ok (mk pr.2)
  else .ok (mk 0)

/-- `Router::process_bgp_rib_out_route` (`router.rs` 444-460). -/
def Router.process_bgp_rib_out_route (r : Router) (entry : RIBEntry)
    (target_peer : RouterId) : Except DeviceError RIBEntry :=
  let new_route := if slContains r.ebgp_sessions target_peer then
      { entry.route with next_hop := r.router_id, local_pref := none }
    else entry.route
  match r.get_bgp_session_type target_peer with
  | .error e => .error e
  | .ok from_type =>
    .ok { route := new_route, from_type := from_type,
          from_id := entry.from_id, igp_cost := entry.igp_cost }

/-- The best-route fold of `Router::run_bgp_decision_process_for_prefix`
(`router.rs` 248-259): process each remaining raw entry and keep the one
that `partial_cmp` calls strictly greater than the current best. -/
def Router.bestFold (r : Router) :
    List RIBEntry → Option RIBEntry → Except DeviceError (Option RIBEntry)
  | [], cur => .ok cur
  | entry_unprocessed :: rest, cur =>
    match r.process_bgp_rib_in_route entry_unprocessed with
    | .error e => .error e
    | .ok entry =>
      let better : Bool := match cur with
        | some current_best => RIBEntry.partial_cmp entry current_best == some .gt
        | none => true
      r.bestFold rest (if better then some entry else cur)

/-- The new best entry for a prefix: the fold above over the values of
`bgp_rib_in[p]`, or `none` when the prefix has no `rib_in` table. -/
def Router.bgpBestRoute (r : Router) (p : Pfx) :
    Except DeviceError (Option RIBEntry) :=
  match alGet r.bgp_rib_in p with
  | some rib_in => r.bestFold (rib_in.map (fun kv => kv.2)) none
  | none => .ok none

/-- Rust `Option<RIBEntry>` equality (`new_entry.as_ref() != old_entry`),
built on `RIBEntry`'s `PartialEq`. -/
def optEqRIB : Option RIBEntry → Option RIBEntry → Bool
  | some a, some b => RIBEntry.eqRIB a b
  | none, none => true
  | _, _ => false

/-- The commit step of the decision process (`router.rs` 261-270):
replace or drop `bgp_rib[p]` only when the new winner differs — by route
equality and `from_id` — from the stored entry. -/
def Router.commitBest (r : Router) (p : Pfx) (new_entry : Option RIBEntry) : Router :=
  if optEqRIB new_entry (alGet r.bgp_rib p) then r
  else match new_entry with
    | some n => { r with bgp_rib := alInsert r.bgp_rib p n }
    | none => { r with bgp_rib := alRemove r.bgp_rib p }

/-- `Router::run_bgp_decision_process_for_prefix` (`router.rs` 242-272):
compute the best processed entry, then commit it. -/
def Router.run_bgp_decision_process_for_prefix (r : Router) (p : Pfx) :
    Except DeviceError Router :=
  match r.bgpBestRoute p with
  | .error e => .error e
  | .ok new_entry => .ok (r.commitBest p new_entry)

/-- Helper for the `get_mut`/`insert` pattern on `bgp_rib_out[p]` in the
dissemination loop (`router.rs` 315-317, 332-334): insert the peer's entry
into the inner map of `p`; a no-op when the prefix is absent, which the
caller prevents by creating the inner map first. -/
def Router.ribOutInsert (r : Router) (p : Pfx) (peer : RouterId) (e : RIBEntry) : Router :=
  match alGet r.bgp_rib_out p with
  | some inner => { r with bgp_rib_out := alInsert r.bgp_rib_out p (alInsert inner peer e) }
  | none => r

/-- Helper for the `get_mut`/`remove` pattern on `bgp_rib_out[p]`
(`router.rs` 321-323, 342-344). -/
def Router.ribOutRemove (r : Router) (p : Pfx) (peer : RouterId) : Router :=
  match alGet r.bgp_rib_out p with
  | some inner => { r with bgp_rib_out := alInsert r.bgp_rib_out p (alRemove inner peer) }
  | none => r

/-- Body of the per-peer dissemination loop of
`Router::run_bgp_route_dissemination_for_prefix` (`router.rs` 293-355):
compute the route for the peer, compare with `bgp_rib_out[p][peer]`, update
`rib_out` and return the event to push for this peer, if any. -/
def Router.dissemOnePeer (r : Router) (p : Pfx) (peer : RouterId) :
    Except DeviceError (Router × Option BgpEvent) :=
  match alGet r.bgp_rib p with
  | some e =>
    match r.process_bgp_rib_out_route e peer with
    | .error er => .error er
    | .ok best_r =>
      match (alGet r.bgp_rib_out p).bind (fun rib => alGet rib peer) with
      | some current_r =>
        if RIBEntry.eqRIB best_r current_r then .ok (r, none)
        else
          match r.should_export_route best_r.from_id peer with
          | .error er => .error er
          | .ok ex =>
            if ex then .ok (r.ribOutInsert p peer best_r, some (.Update best_r.route))
            else .ok (r.ribOutRemove p peer, some (.Withdraw p))
      | none =>
        match r.should_export_route best_r.from_id peer with
        | .error er => .error er
        | .ok ex =>
          if ex then .ok (r.ribOutInsert p peer best_r, some (.Update best_r.route))
          else .ok (r, none)
  | none =>
    match (alGet r.bgp_rib_out p).bind (fun rib => alGet rib peer) with
    | some _ => .ok (r.ribOutRemove p peer, some (.Withdraw p))
    | none => .ok (r, none)

/-- The `bgp_peers` union of the dissemination loop (`router.rs` 284-291):
clients, then iBGP peers, then eBGP sessions, without duplicates (the Rust
`HashSet` union iterates in an arbitrary order; this fixes one). -/
def Router.bgpPeers (r : Router) : List RouterId :=
  slUnion (slUnion r.ibgp_client_sessions r.ibgp_peer_sessions) r.ebgp_sessions

/-- One iteration of the dissemination loop as a fold step: on an error
accumulator the remaining peers are skipped (the Rust `?` has already
returned); otherwise run the per-peer body and push the emitted event. -/
def Router.dissemStep (p : Pfx) (acc : Router × List Event × Option DeviceError)
    (peer : RouterId) : Router × List Event × Option DeviceError :=
  match acc with
  | (r1, q1, some e) => (r1, q1, some e)
  | (r1, q1, none) =>
    match r1.dissemOnePeer p peer with
    | .ok (r2, some ev) => (r2, q1 ++ [Event.Bgp r1.router_id peer ev], none)
    | .ok (r2, none) => (r2, q1, none)
    | .error e => (r1, q1, some e)

/-- `Router::run_bgp_route_dissemination_for_prefix` (`router.rs`
275-359): ensure `bgp_rib_out[p]` exists, then run the per-peer body over
every session peer, pushing the emitted events onto the queue.  A failing
peer stops the loop and the partial state is returned with the error,
mirroring `&mut self` plus `?`. -/
def Router.run_bgp_route_dissemination_for_prefix (r : Router) (p : Pfx)
    (queue : List Event) : Router × List Event × Option DeviceError :=
  let r0 := if (alGet r.bgp_rib_out p).isSome then r
            else { r with bgp_rib_out := alInsert r.bgp_rib_out p [] }
  r0.bgpPeers.foldl (Router.dissemStep p) (r0, queue, none)

/-- `Router::insert_bgp_route` (`router.rs` 363-390): store the raw route
in `bgp_rib_in` keyed by prefix and sender; fails with `NoBgpSession` when
no session exists with the sender (before any mutation).  Returns the
prefix. -/
def Router.insert_bgp_route (r : Router) (route : BgpRoute) (source : RouterId) :
    Except DeviceError (Router × Pfx) :=
  match r.get_bgp_session_type source with
  | .error e => .error e
  | .ok from_type =>
    let new_entry : RIBEntry :=
      { route := route, from_type := from_type, from_id := source, igp_cost := none }
    let inner := (alGet r.bgp_rib_in route.pfx).getD []
    .ok ({ r with
            bgp_rib_in := alInsert r.bgp_rib_in route.pfx (alInsert inner source new_entry) },
         route.pfx)

/-- `Router::remove_bgp_route` (`router.rs` 394-400): drop the sender's
entry for the prefix if present; never fails.  Returns the prefix. -/
def Router.remove_bgp_route (r : Router) (p : Pfx) (source : RouterId) : Router × Pfx :=
  (match alGet r.bgp_rib_in p with
   | some inner => { r with bgp_rib_in := alInsert r.bgp_rib_in p (alRemove inner source) }
   | none => r, p)

/-- `Router::handle_event` (`router.rs` 83-99): the three-phase update on
a BGP event addressed to this router; events addressed elsewhere are
ignored.  Mutations performed before a failing step are kept, mirroring
`&mut self`: the error is returned alongside the partially updated
state. -/
def Router.handle_event (r : Router) (event : Event) (queue : List Event) :
    Router × List Event × Option DeviceError :=
  match event with
  | .Bgp source target bgp_event =>
    if target = r.router_id then
      match (match bgp_event with
             | .Update route => r.insert_bgp_route route source
             | .Withdraw p => .ok (r.remove_bgp_route p source)) with
      | .error e => (r, queue, some e)
      | .ok (r1, p) =>
        let r2 := { r1 with bgp_known_prefixes := slInsert r1.bgp_known_prefixes p }
        match r2.run_bgp_decision_process_for_prefix p with
        | .error e => (r2, queue, some e)
        | .ok r3 => r3.run_bgp_route_dissemination_for_prefix p queue
    else (r, queue, none)

/-- `Router::bgp_decision_process` (`router.rs` 194-199): the decision
process over every known prefix; a failing prefix stops the loop. -/
def Router.bgp_decision_process (r : Router) : Router × Option DeviceError :=
  r.bgp_known_prefixes.foldl
    (fun acc p =>
      match acc with
      | (r1, some e) => (r1, some e)
      | (r1, none) =>
        match r1.run_bgp_decision_process_for_prefix p with
        | .ok r2 => (r2, none)
        | .error e => (r1, some e))
    (r, none)

/-- `Router::bgp_route_dissemination` (`router.rs` 202-207). -/
def Router.bgp_route_dissemination (r : Router) (queue : List Event) :
    Router × List Event × Option DeviceError :=
  r.bgp_known_prefixes.foldl
    (fun acc p =>
      match acc with
      | (r1, q1, some e) => (r1, q1, some e)
      | (r1, q1, none) => r1.run_bgp_route_dissemination_for_prefix p q1)
    (r, queue, none)

/-- `Router::get_next_hop` (`router.rs` 210-219): resolve the selected
entry's BGP next hop through the IGP forwarding table.  The source unwraps
the outer IGP lookup and panics when the next hop is not a key of the
table; that arm is modelled as `none` and no theorem relies on it. -/
def Router.get_next_hop (r : Router) (p : Pfx) : Option RouterId :=
  match alGet r.bgp_rib p with
  | some entry =>
    match alGet r.igp_forwarding_table entry.route.next_hop with
    | some o => o.map (fun pr => pr.1)
    | none => none
  | none => none

/-- `Router::get_selected_bgp_route` (`router.rs` 233-235). -/
def Router.get_selected_bgp_route (r : Router) (p : Pfx) : Option RIBEntry :=
  alGet r.bgp_rib p

/-- Modelled from the spec: `best_for_peer` as spec section 4.5 step 1
words it — clone `rib[p]`; toward an eBGP peer rewrite `next_hop` to self
and clear `local_pref` (plus the source's bookkeeping of the target
session type in `from_type`, which route equality ignores).  Used for
refinement comparison with `Router.process_bgp_rib_out_route`. -/
def Router.bestForPeerSpec (r : Router) (e : RIBEntry) (peer : RouterId)
    (ft : BgpSessionType) : RIBEntry :=
  { route := if slContains r.ebgp_sessions peer then
      { e.route with next_hop := r.router_id, local_pref := none }
    else e.route,
    from_type := ft, from_id := e.from_id, igp_cost := e.igp_cost }

/-- Modelled from the spec: the emission table of spec section 4.5 step 3,
comparing `best_for_peer` with `rib_out[p][peer]`.  Returns the event to
emit and the resulting `rib_out[p][peer]`: both absent, nothing; new
present and absent-or-different in `rib_out` and allowed, record and emit
Update; new present, old absent, not allowed, nothing; both present and
equal, nothing; new present, old present, differing, not allowed, remove
and emit Withdraw; new absent, old present, remove and emit Withdraw. -/
def dissemSpec (best cur : Option RIBEntry) (allowed : Bool) (p : Pfx) :
    Option BgpEvent × Option RIBEntry :=
  match best, cur with
  | none, none => (none, none)
  | some b, none =>
    if allowed then (some (.Update b.route), some b) else (none, none)
  | some b, some c =>
    if RIBEntry.eqRIB b c then (none, some c)
    else if allowed then (some (.Update b.route), some b)
    else (some (.Withdraw p), none)
  | none, some _ => (some (.Withdraw p), none)

/-- `NetworkError` (`types.rs`); the Rust variant `DeviceError(DeviceError)`
is called `DeviceErr` because the Lean name `DeviceError` denotes the
type. -/
inductive NetworkError
  | DeviceErr (e : DeviceError)
  | DeviceNotFound (r : RouterId)
  | DeviceIsExternalRouter (r : RouterId)
  | ForwardingLoop (path : List String)
  | ForwardingBlackHole (path : List String)
deriving DecidableEq, Repr

/-- `ExternalRouter` (`external_router.rs`); its `handle_event` is a
no-op. -/
structure ExternalRouter where
  name : String
  router_id : RouterId
  as_id : Nat
  neighbors : List RouterId
deriving DecidableEq, Repr

/-- `Network` (`network.rs`).  The `net : IgpNetwork` graph field only
feeds the shortest-path computation, which is outside the embedded core
(spec section 1 keeps the concrete shortest-path implementation out of
scope); it is therefore not carried here. -/
structure Network where
  routers : List (RouterId × Router)
  external_routers : List (RouterId × ExternalRouter)
  queue : List Event
  stop_after : Option Nat
deriving DecidableEq, Repr

/-- Dispatch of one popped event inside `Network::do_queue` (`network.rs`
315-328): an internal destination runs `Router::handle_event` against the
shared queue, an external destination ignores the event, an unknown
destination is `DeviceNotFound`. -/
def Network.execEvent (net : Network) (event : Event) : Network × Option NetworkError :=
  match event with
  | .Bgp source target bgp_event =>
    match alGet net.routers target with
    | some r =>
      match r.handle_event (.Bgp source target bgp_event) net.queue with
      | (r1, q1, e1) =>
        ({ net with routers := alInsert net.routers target r1, queue := q1 },
         e1.map (fun e => .DeviceErr e))
    | none =>
      match alGet net.external_routers target with
      | some _ => (net, none)
      | none => (net, some (.DeviceNotFound target))

/-- `Network::do_queue` (`network.rs` 303-341), with the iteration cap
passed explicitly (`remaining_iter` in the source, initialised from
`stop_after`; the claims concern capped runs, for which the Rust loop is
exactly this recursion).  The source pops the front event first and only
then tests the cap, so the event popped when the cap is exhausted is
dropped.  A dispatched `NoBgpSession` is logged and skipped; any other
error aborts the run. -/
def Network.do_queue : Nat → Network → Except NetworkError (Bool × Network)
  | rem, net =>
    match net.queue with
    | [] => .ok (true, net)
    | event :: rest =>
      match rem with
      | 0 => .ok (false, { net with queue := rest })
      | rem' + 1 =>
        match Network.execEvent { net with queue := rest } event with
        | (net1, none) => Network.do_queue rem' net1
        | (net1, some (.DeviceErr (.NoBgpSession _))) => Network.do_queue rem' net1
        | (_, some e) => .error e

/-- One successful (or locally recovered) iteration of the `do_queue`
loop, used to describe the state reached after a number of handled events:
`none` when the queue is empty or the popped event aborts the run. -/
def Network.stepOnce (net : Network) : Option Network :=
  match net.queue with
  | [] => none
  | event :: rest =>
    match Network.execEvent { net with queue := rest } event with
    | (net1, none) => some net1
    | (net1, some (.DeviceErr (.NoBgpSession _))) => some net1
    | (_, some _) => none

/-- The state after `n` handled events of the `do_queue` loop, when all of
them are handled without aborting. -/
def Network.stepsOk : Nat → Network → Option Network
  | 0, net => some net
  | n + 1, net =>
    match Network.stepOnce net with
    | some m => Network.stepsOk n m
    | none => none

/-- Name of an internal router, for the diagnostic paths of
`Network::get_route`. -/
def Network.routerNameOf (net : Network) (x : RouterId) : String :=
  match alGet net.routers x with
  | some r => r.name
  | none => ""

/-- Loop body of `Network::get_route` (`network.rs` 370-402), with fuel
counting hops.  Every iteration either exits or visits a fresh internal
router, so `net.routers.length + 1` fuel is never exhausted; the fuel-0
arm is unreachable and returns `DeviceNotFound`. -/
def Network.get_route_go (net : Network) (p : Pfx) :
    Nat → RouterId → List RouterId → List RouterId → Except NetworkError (List RouterId)
  | 0, current, _, _ => .error (.DeviceNotFound current)
  | fuel + 1, current, visited, result =>
    if !(alGet net.routers current).isSome && !(alGet net.external_routers current).isSome then
      .error (.DeviceNotFound current)
    else
      let result := result ++ [current]
      match alGet net.routers current with
      | some r =>
        if slContains visited current then
          .error (.ForwardingLoop (result.map (fun x => net.routerNameOf x)))
        else
          match r.get_next_hop p with
          | some nh => Network.get_route_go net p fuel nh (visited ++ [current]) result
          | none => .error (.ForwardingBlackHole (result.map (fun x => net.routerNameOf x)))
      | none => .ok result

/-- `Network::get_route` (`network.rs` 358-404): walk the selected next
hops from `source` toward the prefix, diagnosing loops and black holes. -/
def Network.get_route (net : Network) (source : RouterId) (p : Pfx) :
    Except NetworkError (List RouterId) :=
  if (alGet net.external_routers source).isSome then
    .error (.DeviceIsExternalRouter source)
  else
    Network.get_route_go net p (net.routers.length + 1) source [] []

deriving instance DecidableEq for Except

section Lemmas

variable {κ β : Type} [DecidableEq κ]

theorem alGet_alInsert_self (l : List (κ × β)) (k : κ) (v : β) :
    alGet (alInsert l k v) k = some v := by
  induction l with
  | nil => simp [alInsert, alGet]
  | cons kv l ih =>
    obtain ⟨k1, v1⟩ := kv
    by_cases h : k1 = k
    · simp [alInsert, alGet, h]
    · simp [alInsert, alGet, h, ih]

theorem alGet_alInsert_ne (l : List (κ × β)) (k q : κ) (v : β) (h : q ≠ k) :
    alGet (alInsert l k v) q = alGet l q := by
  have h' : ¬ (k = q) := fun hh => h hh.symm
  induction l with
  | nil => simp [alInsert, alGet, h']
  | cons kv l ih =>
    obtain ⟨k1, v1⟩ := kv
    by_cases h1 : k1 = k
    · subst h1
      simp [alInsert, alGet, h']
    · by_cases h2 : k1 = q
      · simp [alInsert, alGet, h1, h2, h]
      · simp [alInsert, alGet, h1, h2, ih]

theorem alGet_alRemove_self (l : List (κ × β)) (k : κ) :
    alGet (alRemove l k) k = none := by
  induction l with
  | nil => simp [alRemove, alGet]
  | cons kv l ih =>
    obtain ⟨k1, v1⟩ := kv
    by_cases h : k1 = k
    · simp [alRemove, h, ih]
    · simp [alRemove, alGet, h, ih]

theorem alGet_alRemove_ne (l : List (κ × β)) (k q : κ) (h : q ≠ k) :
    alGet (alRemove l k) q = alGet l q := by
  induction l with
  | nil => simp [alRemove]
  | cons kv l ih =>
    obtain ⟨k1, v1⟩ := kv
    by_cases h1 : k1 = k
    · subst h1
      have h2 : ¬ (k1 = q) := fun hh => h (hh ▸ rfl)
      simp [alRemove, alGet, h2, ih]
    · by_cases h2 : k1 = q
      · simp [alRemove, alGet, h1, h2, h]
      · simp [alRemove, alGet, h1, h2, ih]

theorem alRemove_idem (l : List (κ × β)) (k : κ) :
    alRemove (alRemove l k) k = alRemove l k := by
  induction l with
  | nil => simp [alRemove]
  | cons kv l ih =>
    obtain ⟨k1, v1⟩ := kv
    by_cases h : k1 = k
    · simp [alRemove, h, ih]
    · simp [alRemove, h, ih]

theorem slContains_iff {α : Type} [DecidableEq α] (l : List α) (x : α) :
    slContains l x = true ↔ x ∈ l := by
  induction l with
  | nil => simp [slContains]
  | cons y l ih =>
    by_cases h : y = x
    · simp [slContains, h]
    · have h' : ¬ (x = y) := fun hh => h hh.symm
      simp [slContains, h, ih, h']

theorem mem_slInsert_self {α : Type} [DecidableEq α] (l : List α) (x : α) :
    x ∈ slInsert l x := by
  unfold slInsert
  split
  · exact (slContains_iff l x).mp (by assumption)
  · simp

theorem slContains_slRemove_self {α : Type} [DecidableEq α] (l : List α) (x : α) :
    slContains (slRemove l x) x = false := by
  induction l with
  | nil => simp [slRemove, slContains]
  | cons y l ih =>
    by_cases h : y = x
    · simp [slRemove, h, ih]
    · simp [slRemove, slContains, h, ih]

theorem slContains_slRemove_ne {α : Type} [DecidableEq α] (l : List α) (x y : α)
    (h : y ≠ x) : slContains (slRemove l x) y = slContains l y := by
  induction l with
  | nil => simp [slRemove]
  | cons z l ih =>
    by_cases h1 : z = x
    · subst h1
      have h2 : ¬ (z = y) := fun hh => h (hh ▸ rfl)
      simp [slRemove, slContains, h2, ih]
    · by_cases h2 : z = y
      · simp [slRemove, slContains, h1, h2, h]
      · simp [slRemove, slContains, h1, h2, ih]

theorem purgeNeighbor_get_not_mem (t : RouterId) (ps : List Pfx)
    (m : List (Pfx × List (RouterId × RIBEntry))) (q : Pfx) (h : q ∉ ps) :
    alGet (purgeNeighbor t ps m) q = alGet m q := by
  induction ps generalizing m with
  | nil => rfl
  | cons p ps ih =>
    have hq : q ∉ ps := fun hh => h (List.mem_cons_of_mem p hh)
    have hp : q ≠ p := fun hh => h (hh ▸ List.mem_cons_self p ps)
    unfold purgeNeighbor
    rw [ih _ hq]
    cases hm : alGet m p with
    | some inner => simp [alGet_alInsert_ne _ _ _ _ hp]
    | none => rfl

theorem purgeNeighbor_get_mem (t : RouterId) (ps : List Pfx)
    (m : List (Pfx × List (RouterId × RIBEntry))) (q : Pfx) (h : q ∈ ps) :
    alGet (purgeNeighbor t ps m) q =
      (alGet m q).map (fun inner => alRemove inner t) := by
  induction ps generalizing m with
  | nil => cases h
  | cons p ps ih =>
    unfold purgeNeighbor
    by_cases hq : q ∈ ps
    · rw [ih _ hq]
      by_cases hp : p = q
      · subst hp
        cases hm : alGet m p with
        | some inner => simp [hm, alGet_alInsert_self, alRemove_idem]
        | none => simp [hm]
      · have hp' : q ≠ p := fun hh => hp hh.symm
        cases hm : alGet m p with
        | some inner => simp [alGet_alInsert_ne _ _ _ _ hp']
        | none => rfl
    · have hp : p = q := by
        rcases List.mem_cons.mp h with h1 | h1
        · exact h1.symm
        · exact absurd h1 hq
      subst hp
      rw [purgeNeighbor_get_not_mem _ _ _ _ hq]
      cases hm : alGet m p with
      | some inner => simp [hm, alGet_alInsert_self]
      | none => simp [hm]

theorem ribOutInsert_frame (r : Router) (p : Pfx) (peer : RouterId) (e : RIBEntry) :
    (r.ribOutInsert p peer e).bgp_rib = r.bgp_rib ∧
    (r.ribOutInsert p peer e).bgp_rib_in = r.bgp_rib_in ∧
    (r.ribOutInsert p peer e).bgp_known_prefixes = r.bgp_known_prefixes ∧
    (r.ribOutInsert p peer e).ebgp_sessions = r.ebgp_sessions ∧
    (r.ribOutInsert p peer e).ibgp_peer_sessions = r.ibgp_peer_sessions ∧
    (r.ribOutInsert p peer e).ibgp_client_sessions = r.ibgp_client_sessions ∧
    (r.ribOutInsert p peer e).router_id = r.router_id := by
  unfold Router.ribOutInsert
  split <;> exact ⟨rfl, rfl, rfl, rfl, rfl, rfl, rfl⟩

theorem ribOutRemove_frame (r : Router) (p : Pfx) (peer : RouterId) :
    (r.ribOutRemove p peer).bgp_rib = r.bgp_rib ∧
    (r.ribOutRemove p peer).bgp_rib_in = r.bgp_rib_in ∧
    (r.ribOutRemove p peer).bgp_known_prefixes = r.bgp_known_prefixes ∧
    (r.ribOutRemove p peer).ebgp_sessions = r.ebgp_sessions ∧
    (r.ribOutRemove p peer).ibgp_peer_sessions = r.ibgp_peer_sessions ∧
    (r.ribOutRemove p peer).ibgp_client_sessions = r.ibgp_client_sessions ∧
    (r.ribOutRemove p peer).router_id = r.router_id := by
  unfold Router.ribOutRemove
  split <;> exact ⟨rfl, rfl, rfl, rfl, rfl, rfl, rfl⟩

theorem ribOutInsert_out (r : Router) (p : Pfx) (peer : RouterId) (e : RIBEntry)
    (inner : List (RouterId × RIBEntry)) (hpo : alGet r.bgp_rib_out p = some inner) :
    (r.ribOutInsert p peer e).bgp_rib_out =
      alInsert r.bgp_rib_out p (alInsert inner peer e) := by
  simp [Router.ribOutInsert, hpo]

theorem ribOutRemove_out (r : Router) (p : Pfx) (peer : RouterId)
    (inner : List (RouterId × RIBEntry)) (hpo : alGet r.bgp_rib_out p = some inner) :
    (r.ribOutRemove p peer).bgp_rib_out =
      alInsert r.bgp_rib_out p (alRemove inner peer) := by
  simp [Router.ribOutRemove, hpo]

theorem dissemOnePeer_frame (r r' : Router) (p : Pfx) (peer : RouterId)
    (ev : Option BgpEvent) (h : r.dissemOnePeer p peer = .ok (r', ev)) :
    r'.bgp_rib = r.bgp_rib ∧ r'.bgp_rib_in = r.bgp_rib_in ∧
    r'.bgp_known_prefixes = r.bgp_known_prefixes ∧
    r'.ebgp_sessions = r.ebgp_sessions ∧ r'.ibgp_peer_sessions = r.ibgp_peer_sessions ∧
    r'.ibgp_client_sessions = r.ibgp_client_sessions ∧ r'.router_id = r.router_id := by
  unfold Router.dissemOnePeer at h
  repeat' split at h
  all_goals first
    | injection h with h
    | injection h
  all_goals injection h with h1 h2
  all_goals subst h1
  all_goals first
    | exact ⟨rfl, rfl, rfl, rfl, rfl, rfl, rfl⟩
    | apply ribOutInsert_frame
    | apply ribOutRemove_frame

theorem dissemStep_known (p : Pfx) (acc : Router × List Event × Option DeviceError)
    (peer : RouterId) :
    (Router.dissemStep p acc peer).1.bgp_known_prefixes = acc.1.bgp_known_prefixes := by
  obtain ⟨r1, q1, err⟩ := acc
  cases err with
  | some e => rfl
  | none =>
    cases hd : r1.dissemOnePeer p peer with
    | error e => simp [Router.dissemStep, hd]
    | ok pr =>
      obtain ⟨r2, ev⟩ := pr
      have hf := dissemOnePeer_frame r1 r2 p peer ev hd
      cases ev with
      | some e0 => simp [Router.dissemStep, hd, hf.2.2.1]
      | none => simp [Router.dissemStep, hd, hf.2.2.1]

theorem foldl_dissemStep_known (p : Pfx) (peers : List RouterId) :
    ∀ acc : Router × List Event × Option DeviceError,
      ((peers.foldl (Router.dissemStep p) acc).1).bgp_known_prefixes =
        acc.1.bgp_known_prefixes := by
  induction peers with
  | nil => intro acc; rfl
  | cons peer peers ih =>
    intro acc
    rw [List.foldl_cons, ih]
    exact dissemStep_known p acc peer

theorem dissem_preserves_known (r : Router) (p : Pfx) (q : List Event) :
    (r.run_bgp_route_dissemination_for_prefix p q).1.bgp_known_prefixes =
      r.bgp_known_prefixes := by
  unfold Router.run_bgp_route_dissemination_for_prefix
  split <;> rw [foldl_dissemStep_known]

theorem commitBest_fields (r : Router) (p : Pfx) (ne : Option RIBEntry) :
    (r.commitBest p ne).bgp_known_prefixes = r.bgp_known_prefixes ∧
    (r.commitBest p ne).bgp_rib_in = r.bgp_rib_in ∧
    (r.commitBest p ne).bgp_rib_out = r.bgp_rib_out ∧
    (r.commitBest p ne).router_id = r.router_id ∧
    (r.commitBest p ne).ebgp_sessions = r.ebgp_sessions ∧
    (r.commitBest p ne).ibgp_peer_sessions = r.ibgp_peer_sessions ∧
    (r.commitBest p ne).ibgp_client_sessions = r.ibgp_client_sessions := by
  unfold Router.commitBest
  split
  · exact ⟨rfl, rfl, rfl, rfl, rfl, rfl, rfl⟩
  · split <;> exact ⟨rfl, rfl, rfl, rfl, rfl, rfl, rfl⟩

theorem decision_fields (r r' : Router) (p : Pfx)
    (h : r.run_bgp_decision_process_for_prefix p = .ok r') :
    r'.bgp_known_prefixes = r.bgp_known_prefixes ∧
    r'.bgp_rib_in = r.bgp_rib_in ∧ r'.bgp_rib_out = r.bgp_rib_out ∧
    r'.router_id = r.router_id ∧ r'.ebgp_sessions = r.ebgp_sessions ∧
    r'.ibgp_peer_sessions = r.ibgp_peer_sessions ∧
    r'.ibgp_client_sessions = r.ibgp_client_sessions := by
  unfold Router.run_bgp_decision_process_for_prefix at h
  split at h
  · exact absurd h (by simp)
  · injection h with h
    subst h
    exact commitBest_fields r p _

end Lemmas

/-! Concrete material for claim C1. -/

/-- A processed entry learned over eBGP (igp cost present and 0). -/
def c1aE : RIBEntry :=
  { route := { pfx := 0, as_path := [5], next_hop := 3, local_pref := some 100, med := some 0 },
    from_type := .EBgp, from_id := 3, igp_cost := some 0 }

/-- A processed entry learned over iBGP, every other field equal to
`c1aE`. -/
def c1bI : RIBEntry :=
  { route := { pfx := 0, as_path := [5], next_hop := 3, local_pref := some 100, med := some 0 },
    from_type := .IBgpPeer, from_id := 3, igp_cost := some 0 }

/-- Like `c1bI` but with a lower `next_hop` than `c1aE`. -/
def c1bI2 : RIBEntry :=
  { route := { pfx := 0, as_path := [5], next_hop := 1, local_pref := some 100, med := some 0 },
    from_type := .IBgpPeer, from_id := 3, igp_cost := some 0 }

/-- C1: the comparison of processed RIB entries does not realise the
strict lexicographic order of spec section 4.4.  With `c1aE` learned over
eBGP and `c1bI` over iBGP and all earlier criteria tied, the code compares
`c1aE` Greater — but the reverse comparison returns Equal, not Less
(`specCmp`, the spec order, says Less), because the second `from_type`
branch of `RIBEntry::partial_cmp` tests `self` twice and can never fire.
With a lower `next_hop` on the iBGP side (`c1bI2`), both directions even
return Greater.  Equal is also returned when the `from_type` fields
differ, refuting that Equal only arises when every field ties. -/
theorem c1_partial_cmp_divergence :
    RIBEntry.partial_cmp c1aE c1bI = some .gt ∧
    RIBEntry.partial_cmp c1bI c1aE = some .eq ∧
    specCmp c1bI c1aE = .lt ∧
    RIBEntry.partial_cmp c1aE c1bI2 = some .gt ∧
    RIBEntry.partial_cmp c1bI2 c1aE = some .gt ∧
    specCmp c1bI2 c1aE = .lt := by decide

/-! Concrete material for claim C2. -/

/-- Raw `rib_in` entry received over eBGP from neighbor 1. -/
def c2aRaw : RIBEntry :=
  { route := { pfx := 0, as_path := [10], next_hop := 1, local_pref := none, med := none },
    from_type := .EBgp, from_id := 1, igp_cost := none }

/-- Raw `rib_in` entry received over iBGP from neighbor 2, advertising the
router itself as next hop (IGP cost 0). -/
def c2bRaw : RIBEntry :=
  { route := { pfx := 0, as_path := [20], next_hop := 0, local_pref := none, med := none },
    from_type := .IBgpPeer, from_id := 2, igp_cost := none }

/-- Router 0 with an eBGP session to 1, an iBGP peer session to 2, the
IGP self-entry of cost 0, and both raw entries in `rib_in[0]`, iterated
eBGP entry first. -/
def c2Router : Router :=
  { Router.new "r0" 0 65001 with
      ebgp_sessions := [1], ibgp_peer_sessions := [2],
      igp_forwarding_table := [(0, some (0, 0))],
      bgp_rib_in := [(0, [(1, c2aRaw), (2, c2bRaw)])] }

/-- The same router with the opposite iteration order over `rib_in[0]`. -/
def c2RouterRev : Router :=
  { c2Router with bgp_rib_in := [(0, [(2, c2bRaw), (1, c2aRaw)])] }

/-- `c2aRaw` after processing: next hop rewritten to the eBGP neighbor,
default local pref, igp cost 0. -/
def c2aProc : RIBEntry :=
  { route := { pfx := 0, as_path := [10], next_hop := 1, local_pref := some 100, med := some 0 },
    from_type := .EBgp, from_id := 1, igp_cost := some 0 }

/-- `c2bRaw` after processing: advertised (absent) local pref kept, igp
cost 0 looked up for next hop 0. -/
def c2bProc : RIBEntry :=
  { route := { pfx := 0, as_path := [20], next_hop := 0, local_pref := none, med := some 0 },
    from_type := .IBgpPeer, from_id := 2, igp_cost := some 0 }

/-- C2: the decision process commits the iBGP-learned processed entry
`c2bProc` although the eBGP-learned `c2aProc` is strictly greater in the
spec section 4.4 order (`specCmp`), so `rib[0]` is not the ordering
maximum of the processed `rib_in[0]`; with the reversed iteration order
the eBGP entry wins instead, so the committed entry also depends on the
iteration order.  Both failures stem from the dead `from_type` branch in
`RIBEntry::partial_cmp`. -/
theorem c2_decision_commits_nonmaximum :
    c2Router.process_bgp_rib_in_route c2aRaw = .ok c2aProc ∧
    c2Router.process_bgp_rib_in_route c2bRaw = .ok c2bProc ∧
    c2Router.run_bgp_decision_process_for_prefix 0 =
      .ok { c2Router with bgp_rib := [(0, c2bProc)] } ∧
    specCmp c2aProc c2bProc = .gt ∧
    specCmp c2bProc c2aProc = .lt ∧
    c2RouterRev.run_bgp_decision_process_for_prefix 0 =
      .ok { c2RouterRev with bgp_rib := [(0, c2aProc)] } := by decide

/-! Concrete material for claim C3. -/

/-- A network with one internal router, one pending event and the
iteration cap set to 0. -/
def c3Net : Network :=
  { routers := [(0, Router.new "r" 0 65001)], external_routers := [],
    queue := [.Bgp 1 0 (.Withdraw 0)], stop_after := some 0 }

/-- C3 counterexample: with one pending event and the cap exhausted,
`do_queue` returns Ok(false) but the resulting queue is empty — the
pending event was popped before the cap test and is dropped without being
executed (the router state is untouched), so the event queue is NOT left
exactly as it was and a pending event is lost. -/
theorem c3_cap_drops_pending_event :
    c3Net.queue ≠ [] ∧
    Network.do_queue 0 c3Net = .ok (false, { c3Net with queue := [] }) := by decide

/-- Equation lemma: `do_queue` on an empty queue returns converged. -/
theorem do_queue_nil (rem : Nat) (net : Network) (h : net.queue = []) :
    Network.do_queue rem net = .ok (true, net) := by
  obtain ⟨rs, ex, q, sa⟩ := net
  have h' : q = [] := h
  subst h'
  cases rem <;> rfl

/-- Equation lemma: `do_queue` with the cap exhausted pops the front event
and returns Ok(false) with that event dropped. -/
theorem do_queue_zero (net : Network) (e : Event) (rest : List Event)
    (h : net.queue = e :: rest) :
    Network.do_queue 0 net = .ok (false, { net with queue := rest }) := by
  obtain ⟨rs, ex, q, sa⟩ := net
  have h' : q = e :: rest := h
  subst h'
  rfl

/-- Equation lemma: `do_queue` with cap remaining pops and dispatches the
front event. -/
theorem do_queue_succ (n : Nat) (net : Network) (e : Event) (rest : List Event)
    (h : net.queue = e :: rest) :
    Network.do_queue (n + 1) net =
      (match Network.execEvent { net with queue := rest } e with
       | (net1, none) => Network.do_queue n net1
       | (net1, some (.DeviceErr (.NoBgpSession _))) => Network.do_queue n net1
       | (_, some er) => .error er) := by
  obtain ⟨rs, ex, q, sa⟩ := net
  have h' : q = e :: rest := h
  subst h'
  rfl

/-- Equation lemma: `stepOnce` on an empty queue yields `none`. -/
theorem stepOnce_nil (net : Network) (h : net.queue = []) :
    Network.stepOnce net = none := by
  obtain ⟨rs, ex, q, sa⟩ := net
  have h' : q = [] := h
  subst h'
  rfl

/-- Equation lemma: `stepOnce` pops and dispatches the front event. -/
theorem stepOnce_cons (net : Network) (e : Event) (rest : List Event)
    (h : net.queue = e :: rest) :
    Network.stepOnce net =
      (match Network.execEvent { net with queue := rest } e with
       | (net1, none) => some net1
       | (net1, some (.DeviceErr (.NoBgpSession _))) => some net1
       | (_, some _) => none) := by
  obtain ⟨rs, ex, q, sa⟩ := net
  have h' : q = e :: rest := h
  subst h'
  rfl

/-- C3 (amended): if the first `n` popped events are handled without
aborting (`stepsOk`) and the queue still holds an event when the cap runs
out, `do_queue` with cap `n` returns Ok(false); the routers are left in
the state reached at cap exhaustion, and the queue is that state's
pending queue MINUS its head — the event popped when the cap was found
exhausted is dropped. -/
theorem c3_do_queue_cap_exhausted (n : Nat) (net m : Network)
    (hs : Network.stepsOk n net = some m) (hq : m.queue ≠ []) :
    Network.do_queue n net = .ok (false, { m with queue := m.queue.drop 1 }) := by
  induction n generalizing net with
  | zero =>
    injection hs with hs
    subst hs
    cases hqq : net.queue with
    | nil => exact absurd hqq hq
    | cons e rest =>
      rw [do_queue_zero net e rest hqq]
      simp
  | succ n ih =>
    unfold Network.stepsOk at hs
    cases ho : Network.stepOnce net with
    | none => rw [ho] at hs; cases hs
    | some m1 =>
      rw [ho] at hs
      have hrec := ih m1 hs
      cases hqq : net.queue with
      | nil => rw [stepOnce_nil net hqq] at ho; cases ho
      | cons e rest =>
        rw [stepOnce_cons net e rest hqq] at ho
        rw [do_queue_succ n net e rest hqq]
        cases hres : Network.execEvent { net with queue := rest } e with
        | mk net1 err =>
          rw [hres] at ho
          cases err with
          | none =>
            simp at ho
            subst ho
            simpa using hrec
          | some er =>
            cases er with
            | DeviceErr de =>
              cases de with
              | NoBgpSession x =>
                simp at ho
                subst ho
                simpa using hrec
              | SessionAlreadyExists x => simp at ho
              | RouterNotFound x => simp at ho
              | RouterNotReachable x => simp at ho
            | DeviceNotFound x => simp at ho
            | DeviceIsExternalRouter x => simp at ho
            | ForwardingLoop x => simp at ho
            | ForwardingBlackHole x => simp at ho

/-- Witness for the amended C3 theorem at `c3Net` with cap 0. -/
theorem c3_do_queue_cap_exhausted_witness :
    Network.do_queue 0 c3Net = .ok (false, { c3Net with queue := [] }) := by
  have h := c3_do_queue_cap_exhausted 0 c3Net c3Net (by decide) (by decide)
  simpa using h

/-! Concrete material for claim C4. -/

/-- Route advertised over iBGP with next hop 2. -/
def c4Route : BgpRoute :=
  { pfx := 0, as_path := [7], next_hop := 2, local_pref := none, med := none }

/-- Router 0 with an iBGP peer session to 1 and an IGP table in which the
cost to router 2 is 1. -/
def c4Start : Router :=
  { Router.new "r" 0 65001 with
      ibgp_peer_sessions := [1],
      igp_forwarding_table := [(0, some (0, 0)), (2, some (2, 1))] }

/-- The state after `c4Start` handles the Update of `c4Route` from
neighbor 1 (rib entry committed with igp cost 1). -/
def c4A : Router := (c4Start.handle_event (.Bgp 1 0 (.Update c4Route)) []).1

/-- `c4A` after the IGP cost to router 2 changes from 1 to 2 (the state an
IGP-table recomputation would install; the field is public in the
source). -/
def c4Mid : Router :=
  { c4A with igp_forwarding_table := [(0, some (0, 0)), (2, some (2, 2))] }

/-- C4 counterexample: after the IGP cost to the selected next hop changes
from 1 to 2 and the decision process re-runs, the committed `rib[0]` still
carries `igp_cost = 1`: the re-run leaves the router completely unchanged,
because the commit compares the recomputed winner with the stored entry by
route equality and `from_id` only.  The stored cost 1 differs from the
current IGP cost 2 to the entry's next hop, refuting the claim. -/
theorem c4_stale_igp_cost :
    (c4Start.handle_event (.Bgp 1 0 (.Update c4Route)) []).2.2 = none ∧
    (alGet c4A.bgp_rib 0).map (fun e => e.from_type) = some .IBgpPeer ∧
    (alGet c4A.bgp_rib 0).map (fun e => e.route.next_hop) = some 2 ∧
    (alGet c4A.bgp_rib 0).map (fun e => e.igp_cost) = some (some 1) ∧
    alGet c4Mid.igp_forwarding_table 2 = some (some (2, 2)) ∧
    c4Mid.run_bgp_decision_process_for_prefix 0 = .ok c4Mid ∧
    (alGet c4Mid.bgp_rib 0).map (fun e => e.igp_cost) = some (some 1) ∧
    (1 : Rat) ≠ (2 : Rat) := by decide

/-- The recomputed winner in the `c4Mid` state: same route and sender,
current igp cost 2. -/
def c4W : RIBEntry :=
  { route := { pfx := 0, as_path := [7], next_hop := 2, local_pref := none, med := some 0 },
    from_type := .IBgpPeer, from_id := 1, igp_cost := some 2 }

/-- The stored entry in the `c4Mid` state: committed when the cost was
still 1. -/
def c4Old : RIBEntry :=
  { route := { pfx := 0, as_path := [7], next_hop := 2, local_pref := none, med := some 0 },
    from_type := .IBgpPeer, from_id := 1, igp_cost := some 1 }

/-- C4 (amended): the commit step of the decision process compares the new
winner with the stored entry by route equality and `from_id` only
(`RIBEntry.eqRIB`); whenever they are equal under that comparison, the
decision re-run returns the router unchanged — in particular the stored
`igp_cost` is NOT refreshed to the recomputed winner's current cost.  The
stored cost therefore equals the IGP cost current at the last commit, not
necessarily the present one. -/
theorem c4_decision_keeps_equal_entry (r : Router) (p : Pfx) (w old : RIBEntry)
    (hbest : r.bgpBestRoute p = .ok (some w))
    (hold : alGet r.bgp_rib p = some old)
    (heq : RIBEntry.eqRIB w old = true) :
    r.run_bgp_decision_process_for_prefix p = .ok r := by
  unfold Router.run_bgp_decision_process_for_prefix
  rw [hbest]
  unfold Router.commitBest
  rw [hold]
  simp [optEqRIB, heq]

/-- Witness for the amended C4 theorem at the `c4Mid` state. -/
theorem c4_decision_keeps_equal_entry_witness :
    c4Mid.run_bgp_decision_process_for_prefix 0 = .ok c4Mid :=
  c4_decision_keeps_equal_entry c4Mid 0 c4W c4Old (by decide) (by decide) (by decide)

/-! Claim C6. -/

/-- C6: for neighbors that both have current sessions,
`should_export_route` returns false exactly when the source equals the
target (split horizon), or the pair is in `policy_bgp_route_no_export`, or
both sessions are of type iBGP-peer; in every other case it returns
true. -/
theorem c6_should_export_route (r : Router) (f t : RouterId)
    (ft tot : BgpSessionType)
    (hft : r.get_bgp_session_type f = .ok ft)
    (htt : r.get_bgp_session_type t = .ok tot) :
    r.should_export_route f t =
      .ok (!(f == t || slContains r.policy_bgp_route_no_export (f, t)
          || (ft == .IBgpPeer && tot == .IBgpPeer))) := by
  by_cases heq : f = t
  · subst heq
    simp [Router.should_export_route]
  · by_cases hpol : slContains r.policy_bgp_route_no_export (f, t) = true
    · simp [Router.should_export_route, heq, hpol]
    · have hpol' : slContains r.policy_bgp_route_no_export (f, t) = false :=
        Bool.eq_false_iff.mpr hpol
      simp [Router.should_export_route, heq, hpol', hft, htt]
      cases ft <;> cases tot <;> simp [heq]

/-- A router with two iBGP peer sessions, for the C6 witness. -/
def c6Router : Router :=
  { Router.new "c" 0 65001 with ibgp_peer_sessions := [1, 2] }

/-- Witness for C6: between two iBGP-peer neighbors the route is not
exported. -/
theorem c6_should_export_route_witness :
    c6Router.should_export_route 1 2 = .ok false := by
  have h := c6_should_export_route c6Router 1 2 .IBgpPeer .IBgpPeer
    (by decide) (by decide)
  exact h.trans (by decide)

/-! Claim C7. -/

/-- C7: `establish_bgp_session` fails with SessionAlreadyExists exactly
when the peer is in one of the three session sets, and otherwise inserts
it into the set matching the type (the record update leaves every other
field unchanged); `close_bgp_session` fails with NoBgpSession exactly when
the peer is in none of the sets, and on success removes it from the
session sets (preserving other members) and purges the peer's entry from
`rib_in[p]` and `rib_out[p]` for every known prefix, leaving other
neighbors' entries, unknown prefixes, `rib`, and `known_prefixes`
untouched; no event is emitted (the operation takes no queue). -/
theorem c7_session_lifecycle (r : Router) (t : RouterId) (ty : BgpSessionType) :
    (r.establish_bgp_session t ty = .error (.SessionAlreadyExists t) ↔
      (slContains r.ebgp_sessions t || slContains r.ibgp_peer_sessions t
        || slContains r.ibgp_client_sessions t) = true) ∧
    ((slContains r.ebgp_sessions t || slContains r.ibgp_peer_sessions t
        || slContains r.ibgp_client_sessions t) = false →
      r.establish_bgp_session t ty = .ok (match ty with
        | .EBgp => { r with ebgp_sessions := slInsert r.ebgp_sessions t }
        | .IBgpPeer => { r with ibgp_peer_sessions := slInsert r.ibgp_peer_sessions t }
        | .IBgpClient => { r with ibgp_client_sessions := slInsert r.ibgp_client_sessions t })) ∧
    (r.close_bgp_session t = .error (.NoBgpSession t) ↔
      (slContains r.ebgp_sessions t || slContains r.ibgp_peer_sessions t
        || slContains r.ibgp_client_sessions t) = false) ∧
    (∀ r', r.close_bgp_session t = .ok r' →
      slContains r'.ebgp_sessions t = false ∧
      slContains r'.ibgp_peer_sessions t = false ∧
      slContains r'.ibgp_client_sessions t = false ∧
      (∀ x, x ≠ t →
        slContains r'.ebgp_sessions x = slContains r.ebgp_sessions x ∧
        slContains r'.ibgp_peer_sessions x = slContains r.ibgp_peer_sessions x ∧
        slContains r'.ibgp_client_sessions x = slContains r.ibgp_client_sessions x) ∧
      (∀ p, p ∈ r.bgp_known_prefixes →
        alGet r'.bgp_rib_in p = (alGet r.bgp_rib_in p).map (fun inner => alRemove inner t) ∧
        alGet r'.bgp_rib_out p = (alGet r.bgp_rib_out p).map (fun inner => alRemove inner t) ∧
        (alGet r'.bgp_rib_in p).bind (fun inner => alGet inner t) = none ∧
        (alGet r'.bgp_rib_out p).bind (fun inner => alGet inner t) = none) ∧
      (∀ p, p ∉ r.bgp_known_prefixes →
        alGet r'.bgp_rib_in p = alGet r.bgp_rib_in p ∧
        alGet r'.bgp_rib_out p = alGet r.bgp_rib_out p) ∧
      r'.bgp_rib = r.bgp_rib ∧ r'.bgp_known_prefixes = r.bgp_known_prefixes) := by
  by_cases hc : (slContains r.ebgp_sessions t || slContains r.ibgp_peer_sessions t
      || slContains r.ibgp_client_sessions t) = true
  · refine ⟨by simp [Router.establish_bgp_session, hc], ?_, ?_, ?_⟩
    · intro hfalse
      rw [hc] at hfalse
      cases hfalse
    · simp [Router.close_bgp_session, hc]
    · intro r' h
      unfold Router.close_bgp_session at h
      rw [hc] at h
      simp only [Bool.not_true, Bool.false_eq_true, if_false] at h
      injection h with h
      subst h
      refine ⟨slContains_slRemove_self _ _, slContains_slRemove_self _ _,
        slContains_slRemove_self _ _, ?_, ?_, ?_, rfl, rfl⟩
      · intro x hx
        exact ⟨slContains_slRemove_ne _ _ _ hx, slContains_slRemove_ne _ _ _ hx,
          slContains_slRemove_ne _ _ _ hx⟩
      · intro p hp
        refine ⟨purgeNeighbor_get_mem t _ _ p hp, purgeNeighbor_get_mem t _ _ p hp, ?_, ?_⟩
        · rw [purgeNeighbor_get_mem t _ _ p hp]
          cases alGet r.bgp_rib_in p with
          | none => rfl
          | some inner => simp [alGet_alRemove_self]
        · rw [purgeNeighbor_get_mem t _ _ p hp]
          cases alGet r.bgp_rib_out p with
          | none => rfl
          | some inner => simp [alGet_alRemove_self]
      · intro p hp
        exact ⟨purgeNeighbor_get_not_mem t _ _ p hp, purgeNeighbor_get_not_mem t _ _ p hp⟩
  · have hc' : (slContains r.ebgp_sessions t || slContains r.ibgp_peer_sessions t
        || slContains r.ibgp_client_sessions t) = false := Bool.eq_false_iff.mpr hc
    refine ⟨?_, ?_, by simp [Router.close_bgp_session, hc'], ?_⟩
    · simp [Router.establish_bgp_session, hc']
    · intro _
      simp [Router.establish_bgp_session, hc']
    · intro r' h
      unfold Router.close_bgp_session at h
      rw [hc'] at h
      simp at h

/-- Witness for C7: establishing a session on a fresh router inserts the
peer into the matching set. -/
theorem c7_session_lifecycle_witness :
    (Router.new "w" 0 65001).establish_bgp_session 5 .EBgp =
      .ok { Router.new "w" 0 65001 with ebgp_sessions := [5] } := by
  have h := (c7_session_lifecycle (Router.new "w" 0 65001) 5 .EBgp).2.1 (by decide)
  exact h.trans (by decide)

/-! Claim C9. -/

/-- C9: processing a `rib_in` entry.  Learned over eBGP: `local_pref` is
taken from `policy_bgp_local_pref[from_id]` (default 100), `igp_cost` is
0, and `next_hop` is rewritten to `from_id`.  Learned over iBGP: the
advertised `local_pref` field is kept unchanged (its defaulted reading is
100 when absent), and the IGP cost to the route's `next_hop` is looked up,
failing with RouterNotFound exactly when the next hop is not a key of the
IGP table and with RouterNotReachable exactly when the table maps it to
unreachable. -/
theorem c9_process_rib_in (r : Router) (entry : RIBEntry) :
    (entry.from_type.is_ebgp = true →
      r.process_bgp_rib_in_route entry = .ok
        { route := { pfx := entry.route.pfx, as_path := entry.route.as_path,
                     next_hop := entry.from_id,
                     local_pref := some ((alGet r.policy_bgp_local_pref entry.from_id).getD 100),
                     med := some (entry.route.med.getD 0) },
          from_type := entry.from_type, from_id := entry.from_id,
          igp_cost := some 0 }) ∧
    (entry.from_type.is_ibgp = true →
      ((r.process_bgp_rib_in_route entry = .error (.RouterNotFound entry.route.next_hop)) ↔
        alGet r.igp_forwarding_table entry.route.next_hop = none) ∧
      ((r.process_bgp_rib_in_route entry = .error (.RouterNotReachable entry.route.next_hop)) ↔
        alGet r.igp_forwarding_table entry.route.next_hop = some none) ∧
      (∀ nh c, alGet r.igp_forwarding_table entry.route.next_hop = some (some (nh, c)) →
        r.process_bgp_rib_in_route entry = .ok
          { route := { pfx := entry.route.pfx, as_path := entry.route.as_path,
                       next_hop := entry.route.next_hop,
                       local_pref := entry.route.local_pref,
                       med := some (entry.route.med.getD 0) },
            from_type := entry.from_type, from_id := entry.from_id,
            igp_cost := some c })) := by
  constructor
  · intro hebgp
    have hib : entry.from_type.is_ibgp = false := by
      simp [BgpSessionType.is_ibgp, hebgp]
    simp [Router.process_bgp_rib_in_route, hib, hebgp, BgpRoute.clone_default]
  · intro hib
    have hebgp : entry.from_type.is_ebgp = false := by
      simpa [BgpSessionType.is_ibgp] using hib
    cases hm : alGet r.igp_forwarding_table entry.route.next_hop with
    | none =>
      simp [Router.process_bgp_rib_in_route, hib, hebgp, hm, BgpRoute.clone_default]
    | some o =>
      cases o with
      | none =>
        simp [Router.process_bgp_rib_in_route, hib, hebgp, hm, BgpRoute.clone_default]
      | some pr =>
        obtain ⟨nh, c⟩ := pr
        simp [Router.process_bgp_rib_in_route, hib, hebgp, hm, BgpRoute.clone_default]

/-- Ingress policy and IGP table for the C9 witness. -/
def c9Router : Router :=
  { Router.new "n" 0 65001 with
      policy_bgp_local_pref := [(4, 250)],
      igp_forwarding_table := [(6, some (5, 3))] }

/-- An entry received over eBGP from neighbor 4 (which has a local-pref
policy). -/
def c9E : RIBEntry :=
  { route := { pfx := 1, as_path := [2], next_hop := 9, local_pref := none, med := none },
    from_type := .EBgp, from_id := 4, igp_cost := none }

/-- An entry received over iBGP from neighbor 8 with next hop 6 (IGP cost
3). -/
def c9I : RIBEntry :=
  { route := { pfx := 1, as_path := [2], next_hop := 6, local_pref := some 77, med := some 5 },
    from_type := .IBgpClient, from_id := 8, igp_cost := none }

/-- Witness for C9: policy local-pref 250 and next-hop rewrite on the eBGP
entry; kept local-pref 77 and looked-up cost 3 on the iBGP entry. -/
theorem c9_process_rib_in_witness :
    c9Router.process_bgp_rib_in_route c9E = .ok
      { route := { pfx := 1, as_path := [2], next_hop := 4,
                   local_pref := some 250, med := some 0 },
        from_type := .EBgp, from_id := 4, igp_cost := some 0 } ∧
    c9Router.process_bgp_rib_in_route c9I = .ok
      { route := { pfx := 1, as_path := [2], next_hop := 6,
                   local_pref := some 77, med := some 5 },
        from_type := .IBgpClient, from_id := 8, igp_cost := some 3 } := by
  have h1 := (c9_process_rib_in c9Router c9E).1 (by decide)
  have h2 := ((c9_process_rib_in c9Router c9I).2 (by decide)).2.2 5 3 (by decide)
  exact ⟨h1.trans (by decide), h2.trans (by decide)⟩

/-! Claim C10. -/

/-- C10: when the selected entry's next hop is a key of the IGP table
mapped to None (unreachable), `get_next_hop` returns `none`, exactly as if
no route were selected, and `get_route` starting at that router therefore
reports a ForwardingBlackHole carrying the path walked so far (here the
single starting router), not an IGP reachability error. -/
theorem c10_unreachable_next_hop_blackhole (net : Network) (rid : RouterId)
    (r : Router) (p : Pfx) (e : RIBEntry)
    (hint : alGet net.routers rid = some r)
    (hext : alGet net.external_routers rid = none)
    (hrib : alGet r.bgp_rib p = some e)
    (higp : alGet r.igp_forwarding_table e.route.next_hop = some none) :
    r.get_next_hop p = none ∧
    net.get_route rid p = .error (.ForwardingBlackHole [r.name]) := by
  have hnh : r.get_next_hop p = none := by
    simp [Router.get_next_hop, hrib, higp]
  refine ⟨hnh, ?_⟩
  unfold Network.get_route
  rw [hext]
  simp only [Option.isSome_none, Bool.false_eq_true, if_false]
  unfold Network.get_route_go
  simp [hint, hext, hnh, slContains, Network.routerNameOf]

/-- Selected entry whose next hop 7 will be unreachable. -/
def c10Entry : RIBEntry :=
  { route := { pfx := 0, as_path := [1], next_hop := 7, local_pref := some 100, med := some 0 },
    from_type := .IBgpPeer, from_id := 2, igp_cost := some 1 }

/-- Router with the selected entry and an IGP table mapping next hop 7 to
unreachable. -/
def c10Router : Router :=
  { Router.new "s" 0 65001 with
      bgp_rib := [(0, c10Entry)],
      igp_forwarding_table := [(7, none)] }

/-- Network around `c10Router`. -/
def c10Net : Network :=
  { routers := [(0, c10Router)], external_routers := [], queue := [],
    stop_after := some 10 }

/-- Witness for C10 on the concrete one-router network. -/
theorem c10_unreachable_next_hop_blackhole_witness :
    c10Router.get_next_hop 0 = none ∧
    c10Net.get_route 0 0 = .error (.ForwardingBlackHole ["s"]) := by
  have h := c10_unreachable_next_hop_blackhole c10Net 0 c10Router 0 c10Entry
    (by decide) (by decide) (by decide) (by decide)
  exact ⟨h.1, h.2.trans (by decide)⟩

/-! Claim C8. -/

/-- Route used in the C8 artifacts. -/
def c8Route : BgpRoute :=
  { pfx := 0, as_path := [9], next_hop := 1, local_pref := none, med := none }

/-- C8 counterexample: an Update arriving from a neighbor with which no
session exists fails with NoBgpSession BEFORE `known_prefixes` is touched
(the `?` on `insert_bgp_route` propagates first), so the received event's
prefix is NOT recorded — the state is returned unchanged. -/
theorem c8_sessionless_update_not_recorded :
    (Router.new "r" 0 65001).handle_event (.Bgp 1 0 (.Update c8Route)) [] =
      (Router.new "r" 0 65001, [], some (.NoBgpSession 1)) ∧
    c8Route.pfx ∉
      ((Router.new "r" 0 65001).handle_event (.Bgp 1 0 (.Update c8Route)) []).1.bgp_known_prefixes := by
  decide

/-- C8 (amended): `known_prefixes` records the prefix of every received
event addressed to this router EXCEPT an Update from a neighbor with no
current session: a Withdraw's prefix is always recorded (even without a
session, and even if the subsequent decision phase fails), an Update's
prefix is recorded whenever a session with the sender exists, and an
Update from a sessionless neighbor fails with NoBgpSession leaving the
router, the queue, and in particular `known_prefixes` unchanged. -/
theorem c8_known_prefixes_recorded (r : Router) (src : RouterId) (be : BgpEvent)
    (q : List Event) :
    (∀ p, be = .Withdraw p →
      p ∈ (r.handle_event (.Bgp src r.router_id be) q).1.bgp_known_prefixes) ∧
    (∀ route, be = .Update route →
      ((∃ ty, r.get_bgp_session_type src = .ok ty) →
        route.pfx ∈ (r.handle_event (.Bgp src r.router_id be) q).1.bgp_known_prefixes) ∧
      (r.get_bgp_session_type src = .error (.NoBgpSession src) →
        r.handle_event (.Bgp src r.router_id be) q = (r, q, some (.NoBgpSession src)))) := by
  have main : ∀ (r2 : Router) (p : Pfx), p ∈ r2.bgp_known_prefixes →
      p ∈ (match r2.run_bgp_decision_process_for_prefix p with
           | .error e => (r2, q, some e)
           | .ok r3 => r3.run_bgp_route_dissemination_for_prefix p q).1.bgp_known_prefixes := by
    intro r2 p hp
    cases hd : r2.run_bgp_decision_process_for_prefix p with
    | error e => exact hp
    | ok r3 =>
      show p ∈ (r3.run_bgp_route_dissemination_for_prefix p q).1.bgp_known_prefixes
      rw [dissem_preserves_known, (decision_fields r2 r3 p hd).1]
      exact hp
  constructor
  · intro p hbe
    subst hbe
    simp only [Router.handle_event, Router.remove_bgp_route, if_pos rfl]
    exact main _ p (mem_slInsert_self _ p)
  · intro route hbe
    subst hbe
    constructor
    · rintro ⟨ty, hty⟩
      simp only [Router.handle_event, Router.insert_bgp_route, hty, if_pos rfl]
      exact main _ _ (mem_slInsert_self _ _)
    · intro hty
      simp [Router.handle_event, Router.insert_bgp_route, hty]

/-- A router with an eBGP session to 1, for the C8 witness. -/
def c8Router : Router :=
  { Router.new "r" 0 65001 with ebgp_sessions := [1] }

/-- Witness for the amended C8 theorem: with a session present the
Update's prefix is recorded, and on the sessionless fresh router the same
Update is rejected unchanged. -/
theorem c8_known_prefixes_recorded_witness :
    c8Route.pfx ∈
      (c8Router.handle_event (.Bgp 1 0 (.Update c8Route)) []).1.bgp_known_prefixes ∧
    (Router.new "r" 0 65001).handle_event (.Bgp 1 0 (.Update c8Route)) [] =
      (Router.new "r" 0 65001, [], some (.NoBgpSession 1)) := by
  constructor
  · exact ((c8_known_prefixes_recorded c8Router 1 (.Update c8Route) []).2 c8Route rfl).1
      ⟨.EBgp, by decide⟩
  · exact ((c8_known_prefixes_recorded (Router.new "r" 0 65001) 1 (.Update c8Route) []).2
      c8Route rfl).2 (by decide)

/-! Claim C5. -/

/-- C5: for a prefix whose `rib_out` table exists (the dissemination pass
creates it before the per-peer loop) and a session neighbor, the per-peer
dissemination body emits exactly the event of the spec section 4.5 table
(`dissemSpec`) comparing `best_for_peer` (`bestForPeerSpec`: `rib[p]`
cloned, with `next_hop` rewritten to self and `local_pref` cleared for an
eBGP peer) against `rib_out[p][peer]`, records exactly the table's
resulting `rib_out[p][peer]`, and touches nothing else: other peers'
`rib_out` entries, other prefixes, `rib`, `rib_in`, `known_prefixes` and
the session sets are unchanged.  The export-filter hypothesis supplies the
`allowed` bit for the selected entry's sender. -/
theorem c5_dissemination_refines_spec
    (r : Router) (p : Pfx) (peer : RouterId) (ribOutP : List (RouterId × RIBEntry))
    (ft : BgpSessionType) (allowed : Bool)
    (hpo : alGet r.bgp_rib_out p = some ribOutP)
    (hft : r.get_bgp_session_type peer = .ok ft)
    (hse : ∀ e, alGet r.bgp_rib p = some e →
        r.should_export_route e.from_id peer = .ok allowed) :
    ∃ r', r.dissemOnePeer p peer =
        .ok (r', (dissemSpec ((alGet r.bgp_rib p).map (fun e => r.bestForPeerSpec e peer ft))
            (alGet ribOutP peer) allowed p).1) ∧
      alGet ((alGet r'.bgp_rib_out p).getD []) peer =
        (dissemSpec ((alGet r.bgp_rib p).map (fun e => r.bestForPeerSpec e peer ft))
            (alGet ribOutP peer) allowed p).2 ∧
      (∀ x, x ≠ peer → alGet ((alGet r'.bgp_rib_out p).getD []) x = alGet ribOutP x) ∧
      (∀ pq, pq ≠ p → alGet r'.bgp_rib_out pq = alGet r.bgp_rib_out pq) ∧
      r'.bgp_rib = r.bgp_rib ∧ r'.bgp_rib_in = r.bgp_rib_in ∧
      r'.bgp_known_prefixes = r.bgp_known_prefixes ∧
      r'.ebgp_sessions = r.ebgp_sessions ∧
      r'.ibgp_peer_sessions = r.ibgp_peer_sessions ∧
      r'.ibgp_client_sessions = r.ibgp_client_sessions := by
  have hproc : ∀ e, r.process_bgp_rib_out_route e peer = .ok (r.bestForPeerSpec e peer ft) := by
    intro e
    simp [Router.process_bgp_rib_out_route, hft, Router.bestForPeerSpec]
  cases hrb : alGet r.bgp_rib p with
  | none =>
    cases hcur : alGet ribOutP peer with
    | none =>
      refine ⟨r, ?_, ?_, ?_, ?_, rfl, rfl, rfl, rfl, rfl, rfl⟩
      · simp [Router.dissemOnePeer, hrb, hpo, hcur, dissemSpec]
      · simp [hpo, hcur, dissemSpec]
      · intro x hx
        simp [hpo]
      · intro pq hpq
        rfl
    | some c =>
      have hrem := ribOutRemove_frame r p peer
      refine ⟨r.ribOutRemove p peer, ?_, ?_, ?_, ?_,
        hrem.1, hrem.2.1, hrem.2.2.1, hrem.2.2.2.1, hrem.2.2.2.2.1, hrem.2.2.2.2.2.1⟩
      · simp [Router.dissemOnePeer, hrb, hpo, hcur, dissemSpec]
      · rw [ribOutRemove_out r p peer ribOutP hpo]
        simp [alGet_alInsert_self, alGet_alRemove_self, dissemSpec, hcur]
      · intro x hx
        rw [ribOutRemove_out r p peer ribOutP hpo]
        simp [alGet_alInsert_self, alGet_alRemove_ne _ _ _ hx]
      · intro pq hpq
        rw [ribOutRemove_out r p peer ribOutP hpo]
        exact alGet_alInsert_ne _ _ _ _ hpq
  | some e =>
    have hsee := hse e hrb
    have hsee' : r.should_export_route (r.bestForPeerSpec e peer ft).from_id peer =
        .ok allowed := hsee
    cases hcur : alGet ribOutP peer with
    | some c =>
      by_cases hbc : RIBEntry.eqRIB (r.bestForPeerSpec e peer ft) c = true
      · refine ⟨r, ?_, ?_, ?_, ?_, rfl, rfl, rfl, rfl, rfl, rfl⟩
        · simp [Router.dissemOnePeer, hrb, hproc e, hpo, hcur, hbc, dissemSpec]
        · simp [hpo, hcur, dissemSpec, hbc]
        · intro x hx
          simp [hpo]
        · intro pq hpq
          rfl
      · have hbc' : RIBEntry.eqRIB (r.bestForPeerSpec e peer ft) c = false :=
          Bool.eq_false_iff.mpr hbc
        cases hall : allowed with
        | true =>
          have hins := ribOutInsert_frame r p peer (r.bestForPeerSpec e peer ft)
          refine ⟨r.ribOutInsert p peer (r.bestForPeerSpec e peer ft), ?_, ?_, ?_, ?_,
            hins.1, hins.2.1, hins.2.2.1, hins.2.2.2.1, hins.2.2.2.2.1, hins.2.2.2.2.2.1⟩
          · rw [hall] at hsee'
            simp [Router.dissemOnePeer, hrb, hproc e, hpo, hcur, hbc', hsee', dissemSpec]
          · rw [ribOutInsert_out r p peer _ ribOutP hpo]
            simp [alGet_alInsert_self, dissemSpec, hcur, hbc']
          · intro x hx
            rw [ribOutInsert_out r p peer _ ribOutP hpo]
            simp [alGet_alInsert_self, alGet_alInsert_ne _ _ _ _ hx]
          · intro pq hpq
            rw [ribOutInsert_out r p peer _ ribOutP hpo]
            exact alGet_alInsert_ne _ _ _ _ hpq
        | false =>
          have hrem := ribOutRemove_frame r p peer
          refine ⟨r.ribOutRemove p peer, ?_, ?_, ?_, ?_,
            hrem.1, hrem.2.1, hrem.2.2.1, hrem.2.2.2.1, hrem.2.2.2.2.1, hrem.2.2.2.2.2.1⟩
          · rw [hall] at hsee'
            simp [Router.dissemOnePeer, hrb, hproc e, hpo, hcur, hbc', hsee', dissemSpec]
          · rw [ribOutRemove_out r p peer ribOutP hpo]
            simp [alGet_alInsert_self, alGet_alRemove_self, dissemSpec, hcur, hbc']
          · intro x hx
            rw [ribOutRemove_out r p peer ribOutP hpo]
            simp [alGet_alInsert_self, alGet_alRemove_ne _ _ _ hx]
          · intro pq hpq
            rw [ribOutRemove_out r p peer ribOutP hpo]
            exact alGet_alInsert_ne _ _ _ _ hpq
    | none =>
      cases hall : allowed with
      | true =>
        have hins := ribOutInsert_frame r p peer (r.bestForPeerSpec e peer ft)
        refine ⟨r.ribOutInsert p peer (r.bestForPeerSpec e peer ft), ?_, ?_, ?_, ?_,
          hins.1, hins.2.1, hins.2.2.1, hins.2.2.2.1, hins.2.2.2.2.1, hins.2.2.2.2.2.1⟩
        · rw [hall] at hsee'
          simp [Router.dissemOnePeer, hrb, hproc e, hpo, hcur, hsee', dissemSpec]
        · rw [ribOutInsert_out r p peer _ ribOutP hpo]
          simp [alGet_alInsert_self, dissemSpec]
        · intro x hx
          rw [ribOutInsert_out r p peer _ ribOutP hpo]
          simp [alGet_alInsert_self, alGet_alInsert_ne _ _ _ _ hx]
        · intro pq hpq
          rw [ribOutInsert_out r p peer _ ribOutP hpo]
          exact alGet_alInsert_ne _ _ _ _ hpq
      | false =>
        refine ⟨r, ?_, ?_, ?_, ?_, rfl, rfl, rfl, rfl, rfl, rfl⟩
        · rw [hall] at hsee'
          simp [Router.dissemOnePeer, hrb, hproc e, hpo, hcur, hsee', dissemSpec]
        · simp [hpo, hcur, dissemSpec]
        · intro x hx
          simp [hpo]
        · intro pq hpq
          rfl

/-- Selected entry for the C5 witness (learned over an iBGP peer
session). -/
def c5Entry : RIBEntry :=
  { route := { pfx := 0, as_path := [4], next_hop := 2, local_pref := some 100, med := some 0 },
    from_type := .IBgpPeer, from_id := 1, igp_cost := some 1 }

/-- Router for the C5 witness: eBGP session to 3, iBGP peer session to 1,
`c5Entry` selected for prefix 0, empty `rib_out[0]`. -/
def c5Router : Router :=
  { Router.new "d" 0 65001 with
      ebgp_sessions := [3], ibgp_peer_sessions := [1],
      bgp_rib := [(0, c5Entry)],
      bgp_rib_out := [(0, [])] }

/-- Witness for C5: toward the eBGP peer 3 the per-peer dissemination body
emits the Update that the spec table prescribes — the selected route with
`next_hop` rewritten to self and `local_pref` cleared. -/
theorem c5_dissemination_refines_spec_witness :
    (c5Router.dissemOnePeer 0 3).map (fun pr => pr.2) =
      .ok (some (.Update
        { pfx := 0, as_path := [4], next_hop := 0, local_pref := none, med := some 0 })) := by
  obtain ⟨r', h1, _⟩ := c5_dissemination_refines_spec c5Router 0 3 [] .EBgp true
    (by decide) (by decide)
    (by intro e he
        have h2 : some c5Entry = some e := he
        injection h2 with h2
        subst h2
        decide)
  rw [h1]
  rfl

end Bgpsim
